import Mathlib

/-!
Shallow embedding of the macroscoop acquisition pipeline
(`src/ingestion/app/base.py`, `edgar.py`, `db_utils.py`, `yt_transcipts.py`)
and proofs of the specification claims about it.

Python dictionaries holding counters become Lean structures; `datetime.now()`
calls become explicit `Nat` timestamps supplied by the caller; code that may
raise becomes `Except` / an explicit outcome type; SQLite tables become lists
of row structures with the upsert semantics of the executed SQL.
-/

/-- Outcome of running a piece of Python code: a normal value or a raised
exception carrying its message (`str(e)`). -/
inductive PyOutcome (α : Type) where
  | ok (val : α)
  | exn (msg : String)
deriving DecidableEq, Repr

/-- One entry of `self.stats['errors']` as appended by
`BaseSource._track_error` (base.py lines 48-56). -/
structure ErrorRecord where
  etype : String
  message : String
  context : String
  timestamp : Nat
deriving DecidableEq, Repr

/-- The `self.stats` dictionary of `BaseSource` (base.py lines 36-43). -/
structure Stats where
  items_fetched : Nat
  items_validated : Nat
  items_failed : Nat
  errors : List ErrorRecord
  session_start : Option Nat
  session_end : Option Nat
deriving DecidableEq, Repr

/-- The statistics dictionary as built by `BaseSource.__init__` and by
`reset_stats`: all counters zero, no errors, no session timestamps. -/
def initStats : Stats :=
  { items_fetched := 0, items_validated := 0, items_failed := 0,
    errors := [], session_start := none, session_end := none }

/-- `BaseSource._track_error`: append an error record to `stats['errors']`. -/
def track_error (s : Stats) (etype message context : String) (t : Nat) : Stats :=
  { s with errors := s.errors ++ [⟨etype, message, context, t⟩] }

/-- `BaseSource.start_session`: record the session start timestamp. -/
def start_session (s : Stats) (t : Nat) : Stats :=
  { s with session_start := some t }

/-- `BaseSource.end_session`: record the session end timestamp. -/
def end_session (s : Stats) (t : Nat) : Stats :=
  { s with session_end := some t }

/-- `BaseSource.reset_stats`: replace the statistics with a fresh dictionary. -/
def reset_stats (_s : Stats) : Stats := initStats

/-- A concrete source implementation: the three abstract methods of
`BaseSource` together with the `str(...)` rendering of a raw item.
`parse` may raise, return a falsy value (`none`) or a parsed item;
`validate` may raise or return a boolean. -/
structure SourceImpl (Raw Parsed : Type) where
  parse : Raw → PyOutcome (Option Parsed)
  validate : Parsed → PyOutcome Bool
  reprRaw : Raw → String

/-- The body of the per-item loop of `BaseSource.collect`
(base.py lines 140-157): parse, validate, count, and on an exception append
a `processing_error` record whose context is `str(raw_item)[:100]`. -/
def stepItem {Raw Parsed : Type} (impl : SourceImpl Raw Parsed) (t : Nat)
    (acc : Stats × List Parsed) (raw : Raw) : Stats × List Parsed :=
  let s := acc.1
  let out := acc.2
  match impl.parse raw with
  | .exn e =>
      ({ s with items_failed := s.items_failed + 1,
                errors := s.errors ++ [⟨"processing_error", e, (impl.reprRaw raw).take 100, t⟩] },
       out)
  | .ok none =>
      ({ s with items_failed := s.items_failed + 1 }, out)
  | .ok (some p) =>
      match impl.validate p with
      | .exn e =>
          ({ s with items_failed := s.items_failed + 1,
                    errors := s.errors ++ [⟨"processing_error", e, (impl.reprRaw raw).take 100, t⟩] },
           out)
      | .ok true =>
          ({ s with items_validated := s.items_validated + 1 }, out ++ [p])
      | .ok false =>
          ({ s with items_failed := s.items_failed + 1 }, out)

/-- The parse-and-validate loop of `BaseSource.collect` over all raw items. -/
def processItems {Raw Parsed : Type} (impl : SourceImpl Raw Parsed) (t : Nat)
    (raws : List Raw) (s : Stats) (out : List Parsed) : Stats × List Parsed :=
  raws.foldl (stepItem impl t) (s, out)

/-- `BaseSource.collect` (base.py lines 129-163): start the session, fetch
(here: the fetch outcome is passed in), set `items_fetched` by assignment,
run the per-item loop, and in a `finally` block always end the session.
When `fetch` raises, the exception propagates and no list is produced. -/
def collect {Raw Parsed : Type} (impl : SourceImpl Raw Parsed)
    (fetchResult : PyOutcome (List Raw)) (s0 : Stats) (t0 terr t1 : Nat) :
    PyOutcome (List Parsed) × Stats :=
  let s1 := start_session s0 t0
  match fetchResult with
  | .exn e => (.exn e, end_session s1 t1)
  | .ok raws =>
      let s2 := { s1 with items_fetched := raws.length }
      let r := processItems impl terr raws s2 []
      (.ok r.2, end_session r.1 t1)

/-- Whether a raw item passes parse and validate without raising and ends up
in the validated output. -/
def isValidated {Raw Parsed : Type} (impl : SourceImpl Raw Parsed) (r : Raw) : Bool :=
  match impl.parse r with
  | .ok (some p) =>
      match impl.validate p with
      | .ok true => true
      | _ => false
  | _ => false

/-- The validated items produced from a raw item list, in fetch order. -/
def validOut {Raw Parsed : Type} (impl : SourceImpl Raw Parsed) (raws : List Raw) :
    List Parsed :=
  raws.filterMap (fun r =>
    match impl.parse r with
    | .ok (some p) =>
        match impl.validate p with
        | .ok true => some p
        | _ => none
    | _ => none)

/-- How many raw items of a list are counted as failed by the loop. -/
def failCount {Raw Parsed : Type} (impl : SourceImpl Raw Parsed) (raws : List Raw) : Nat :=
  raws.countP (fun r => !isValidated impl r)

/-- The `processing_error` records generated by a raw item list. -/
def errorsOf {Raw Parsed : Type} (impl : SourceImpl Raw Parsed) (t : Nat)
    (raws : List Raw) : List ErrorRecord :=
  raws.filterMap (fun r =>
    match impl.parse r with
    | .exn e => some ⟨"processing_error", e, (impl.reprRaw r).take 100, t⟩
    | .ok none => none
    | .ok (some p) =>
        match impl.validate p with
        | .exn e => some ⟨"processing_error", e, (impl.reprRaw r).take 100, t⟩
        | .ok _ => none)

theorem processItems_spec {Raw Parsed : Type} (impl : SourceImpl Raw Parsed) (t : Nat) :
    ∀ (raws : List Raw) (s : Stats) (out : List Parsed),
    processItems impl t raws s out =
      ({ s with items_validated := s.items_validated + (validOut impl raws).length,
                items_failed := s.items_failed + failCount impl raws,
                errors := s.errors ++ errorsOf impl t raws },
       out ++ validOut impl raws) := by
  intro raws
  induction raws with
  | nil =>
      intro s out
      simp [processItems, validOut, failCount, errorsOf]
  | cons r rs ih =>
      intro s out
      have hstep : processItems impl t (r :: rs) s out =
          processItems impl t rs (stepItem impl t (s, out) r).1 (stepItem impl t (s, out) r).2 := by
        simp [processItems, List.foldl_cons]
      cases hp : impl.parse r with
      | exn e =>
          rw [hstep]
          simp only [stepItem, hp]
          rw [ih]
          simp [validOut, failCount, errorsOf, isValidated, hp, List.countP_cons]
          omega
      | ok po =>
          cases po with
          | none =>
              rw [hstep]
              simp only [stepItem, hp]
              rw [ih]
              simp [validOut, failCount, errorsOf, isValidated, hp, List.countP_cons]
              omega
          | some p =>
              cases hv : impl.validate p with
              | exn e =>
                  rw [hstep]
                  simp only [stepItem, hp, hv]
                  rw [ih]
                  simp [validOut, failCount, errorsOf, isValidated, hp, hv, List.countP_cons]
                  omega
              | ok b =>
                  cases b with
                  | true =>
                      rw [hstep]
                      simp only [stepItem, hp, hv]
                      rw [ih]
                      simp [validOut, failCount, errorsOf, isValidated, hp, hv, List.countP_cons]
                      omega
                  | false =>
                      rw [hstep]
                      simp only [stepItem, hp, hv]
                      rw [ih]
                      simp [validOut, failCount, errorsOf, isValidated, hp, hv, List.countP_cons]
                      omega

theorem validOut_length_add_failCount {Raw Parsed : Type} (impl : SourceImpl Raw Parsed)
    (raws : List Raw) :
    (validOut impl raws).length + failCount impl raws = raws.length := by
  induction raws with
  | nil => simp [validOut, failCount]
  | cons r rs ih =>
      simp only [validOut, failCount, List.filterMap_cons, List.countP_cons] at *
      cases hp : impl.parse r with
      | exn e => simp [hp, isValidated] at *; omega
      | ok po =>
          cases po with
          | none => simp [hp, isValidated] at *; omega
          | some p =>
              cases hv : impl.validate p with
              | exn e => simp [hp, hv, isValidated] at *; omega
              | ok b =>
                  cases b with
                  | true => simp [hp, hv, isValidated] at *; omega
                  | false => simp [hp, hv, isValidated] at *; omega

/-- A raw item whose processing raises: either `parse` raises, or `parse`
returns an item on which `validate` raises. -/
def raisesOn {Raw Parsed : Type} (impl : SourceImpl Raw Parsed) (r : Raw) (e : String) : Prop :=
  impl.parse r = .exn e ∨ ∃ p, impl.parse r = .ok (some p) ∧ impl.validate p = .exn e

/-- C1: a single `collect()` on a freshly constructed source returns a list
whose length equals the final `items_validated`, is at most `items_fetched`,
and at session end `items_validated + items_failed = items_fetched`. -/
theorem collect_session_counts {Raw Parsed : Type} (impl : SourceImpl Raw Parsed)
    (raws : List Raw) (t0 terr t1 : Nat) :
    ∃ out : List Parsed,
      (collect impl (.ok raws) initStats t0 terr t1).1 = .ok out ∧
      out.length = (collect impl (.ok raws) initStats t0 terr t1).2.items_validated ∧
      out.length ≤ (collect impl (.ok raws) initStats t0 terr t1).2.items_fetched ∧
      (collect impl (.ok raws) initStats t0 terr t1).2.items_validated +
        (collect impl (.ok raws) initStats t0 terr t1).2.items_failed =
        (collect impl (.ok raws) initStats t0 terr t1).2.items_fetched := by
  refine ⟨validOut impl raws, ?_⟩
  have hlen := validOut_length_add_failCount impl raws
  simp [collect, processItems_spec, start_session, end_session, initStats]
  omega

/-- C2: when parse/validate raises on one raw item, the exception is caught
in the per-item loop: a `processing_error` record with the item's string
representation truncated to 100 characters is appended, `items_failed` grows
by one, and the remaining items are still processed, so the validated output
equals that of the same pass without the failing item. -/
theorem collect_item_isolation {Raw Parsed : Type} (impl : SourceImpl Raw Parsed)
    (pre post : List Raw) (bad : Raw) (e : String)
    (hbad : raisesOn impl bad e) (t0 terr t1 : Nat) :
    (collect impl (.ok (pre ++ [bad] ++ post)) initStats t0 terr t1).1 =
      (collect impl (.ok (pre ++ post)) initStats t0 terr t1).1 ∧
    (collect impl (.ok (pre ++ [bad] ++ post)) initStats t0 terr t1).2.items_failed =
      (collect impl (.ok (pre ++ post)) initStats t0 terr t1).2.items_failed + 1 ∧
    (⟨"processing_error", e, (impl.reprRaw bad).take 100, terr⟩ : ErrorRecord) ∈
      (collect impl (.ok (pre ++ [bad] ++ post)) initStats t0 terr t1).2.errors := by
  have hval : validOut impl [bad] = [] := by
    rcases hbad with h | ⟨p, hp, hv⟩
    · simp [validOut, h]
    · simp [validOut, hp, hv]
  have hfail : failCount impl [bad] = 1 := by
    rcases hbad with h | ⟨p, hp, hv⟩
    · simp [failCount, isValidated, h]
    · simp [failCount, isValidated, hp, hv]
  have herr : errorsOf impl terr [bad] =
      [⟨"processing_error", e, (impl.reprRaw bad).take 100, terr⟩] := by
    rcases hbad with h | ⟨p, hp, hv⟩
    · simp [errorsOf, h]
    · simp [errorsOf, hp, hv]
  have happ : ∀ l1 l2 : List Raw, validOut impl (l1 ++ l2) = validOut impl l1 ++ validOut impl l2 := by
    intro l1 l2; simp [validOut, List.filterMap_append]
  have happf : ∀ l1 l2 : List Raw, failCount impl (l1 ++ l2) = failCount impl l1 + failCount impl l2 := by
    intro l1 l2; simp [failCount, List.countP_append]
  have happe : ∀ l1 l2 : List Raw, errorsOf impl terr (l1 ++ l2) = errorsOf impl terr l1 ++ errorsOf impl terr l2 := by
    intro l1 l2; simp [errorsOf, List.filterMap_append]
  have hval2 : validOut impl (bad :: post) = validOut impl post := by
    have h := happ [bad] post
    simpa [hval] using h
  have hfail2 : failCount impl (bad :: post) = 1 + failCount impl post := by
    have h := happf [bad] post
    simpa [hfail] using h
  have herr2 : errorsOf impl terr (bad :: post) =
      (⟨"processing_error", e, (impl.reprRaw bad).take 100, terr⟩ : ErrorRecord) ::
        errorsOf impl terr post := by
    have h := happe [bad] post
    simpa [herr] using h
  refine ⟨?_, ?_, ?_⟩
  · simp [collect, processItems_spec, happ, hval2]
  · simp [collect, processItems_spec, end_session, happf, hfail2]
    omega
  · simp [collect, processItems_spec, end_session, start_session, initStats, happe, herr2]

/-- Concrete source used to witness and refute the session-level claims. -/
def cexImpl : SourceImpl Nat Nat :=
  { parse := fun r => if r = 1 then .exn "boom" else .ok (some r),
    validate := fun _ => .ok true,
    reprRaw := fun r => String.mk (List.replicate (r + 120) 'a') }

theorem collect_item_isolation_witness :
    raisesOn cexImpl 1 "boom" ∧
    ((collect cexImpl (.ok ([0] ++ [1] ++ [2])) initStats 0 5 9).1 =
      (collect cexImpl (.ok ([0] ++ [2])) initStats 0 5 9).1 ∧
    (collect cexImpl (.ok ([0] ++ [1] ++ [2])) initStats 0 5 9).2.items_failed =
      (collect cexImpl (.ok ([0] ++ [2])) initStats 0 5 9).2.items_failed + 1 ∧
    (⟨"processing_error", "boom", (cexImpl.reprRaw 1).take 100, 5⟩ : ErrorRecord) ∈
      (collect cexImpl (.ok ([0] ++ [1] ++ [2])) initStats 0 5 9).2.errors) :=
  ⟨Or.inl rfl, collect_item_isolation cexImpl [0] [2] 1 "boom" (Or.inl rfl) 0 5 9⟩

/-- C3: `end_session` runs on every exit path of `collect`; when fetch raises,
`session_end` is still recorded and the exception propagates with no result
list produced. -/
theorem collect_end_session_always {Raw Parsed : Type} (impl : SourceImpl Raw Parsed)
    (fetchResult : PyOutcome (List Raw)) (s0 : Stats) (t0 terr t1 : Nat) :
    (collect impl fetchResult s0 t0 terr t1).2.session_end = some t1 ∧
    (∀ e, fetchResult = .exn e →
      collect impl fetchResult s0 t0 terr t1 =
        (.exn e, end_session (start_session s0 t0) t1)) := by
  constructor
  · cases fetchResult with
    | exn e => simp [collect, end_session]
    | ok raws => simp [collect, end_session]
  · intro e he
    subst he
    simp [collect]

theorem collect_end_session_always_witness :
    (collect cexImpl (.exn "down") initStats 0 0 7).2.session_end = some 7 ∧
    collect cexImpl (PyOutcome.exn "down") initStats 0 0 7 =
      (.exn "down", end_session (start_session initStats 0) 7) :=
  ⟨(collect_end_session_always cexImpl (.exn "down") initStats 0 0 7).1,
   (collect_end_session_always cexImpl (.exn "down") initStats 0 0 7).2 "down" rfl⟩

/-- C10 counterexample: statistics are NOT reset between consecutive
`collect()` calls. After a first session in which one item failed, a second
session that fetches zero items still ends with `items_failed = 1` and a
non-empty error log, so the second session did not begin from zeroed
statistics as the claim states. -/
theorem collect_no_reset_counterexample :
    (collect cexImpl (.ok ([] : List Nat))
        (collect cexImpl (.ok [1]) initStats 0 1 2).2 3 4 5).2.items_failed = 1 ∧
    (collect cexImpl (.ok ([] : List Nat))
        (collect cexImpl (.ok [1]) initStats 0 1 2).2 3 4 5).2.errors ≠ [] := by
  constructor
  · rfl
  · intro h
    simp [collect, processItems, stepItem, cexImpl, end_session, start_session] at h

/-- C10 amended: between consecutive `collect()` invocations no reset occurs:
`items_validated`, `items_failed` and the error log carry over additively from
the starting statistics, and only `items_fetched` is overwritten by assignment
with the new fetch count; a reset happens only via an explicit `reset_stats`
call, which restores the freshly-constructed statistics. -/
theorem collect_stats_carry_over {Raw Parsed : Type} (impl : SourceImpl Raw Parsed)
    (s0 : Stats) (raws : List Raw) (t0 terr t1 : Nat) :
    (collect impl (.ok raws) s0 t0 terr t1).2.items_fetched = raws.length ∧
    (collect impl (.ok raws) s0 t0 terr t1).2.items_validated =
      s0.items_validated + (validOut impl raws).length ∧
    (collect impl (.ok raws) s0 t0 terr t1).2.items_failed =
      s0.items_failed + failCount impl raws ∧
    (collect impl (.ok raws) s0 t0 terr t1).2.errors =
      s0.errors ++ errorsOf impl terr raws ∧
    reset_stats (collect impl (.ok raws) s0 t0 terr t1).2 = initStats := by
  simp [collect, processItems_spec, end_session, start_session, reset_stats]

/-!
HTTP layer (`BaseHTTPSource`, base.py lines 171-394).

The `requests` transport (including the urllib3 `Retry` adapter configured in
`_setup_session`) is external; its ultimate outcome for one logical request is
abstracted as `HTTPOutcome`, mirroring the exception classes handled by
`BaseHTTPSource.request`: a successful response after `raise_for_status`, an
`HTTPError` (whose response, and hence status code, may be absent), a
`Timeout`, a `ConnectionError`, another `RequestException`, or any other
exception.
-/

/-- A response object as far as the claims need it. -/
structure HTTPResponse where
  status_code : Nat
  body : String
deriving DecidableEq, Repr

/-- Ultimate outcome of one logical request made by `self.session.request`
followed by `response.raise_for_status()`. -/
inductive HTTPOutcome where
  | success (status : Nat) (body : String)
  | httpError (status : Option Nat) (msg : String)
  | timeout (msg : String)
  | connectionError (msg : String)
  | requestException (msg : String)
  | unexpectedError (msg : String)
deriving DecidableEq, Repr

/-- The HTTP portion of `self.stats` added by `BaseHTTPSource.__init__`
(base.py lines 203-208), together with the inherited base statistics. -/
structure HTTPStats where
  base : Stats
  total_requests : Nat
  successful_requests : Nat
  failed_requests : Nat
  errors_by_type : List (String × Nat)
deriving DecidableEq, Repr

/-- Value of `errors_by_type.get(k, 0)` for a Python dict modelled as an
association list with unique keys (first match wins). -/
def lookupCount : List (String × Nat) → String → Nat
  | [], _ => 0
  | p :: rest, k => if p.1 = k then p.2 else lookupCount rest k

/-- `BaseHTTPSource._track_http_error` (base.py lines 272-275):
`d[k] = d.get(k, 0) + 1`. -/
def track_http_error : List (String × Nat) → String → List (String × Nat)
  | [], k => [(k, 1)]
  | p :: rest, k => if p.1 = k then (p.1, p.2 + 1) :: rest else p :: track_http_error rest k

/-- The status string used in the `http_<status>` key: the response's status
code, or `unknown` when the exception carries no response
(base.py line 322). -/
def statusStr : Option Nat → String
  | some c => toString c
  | none => "unknown"

/-- The `errors_by_type` key recorded for a failing outcome,
`none` for a success. -/
def classifyFailure : HTTPOutcome → Option String
  | .success _ _ => none
  | .httpError s _ => some ("http_" ++ statusStr s)
  | .timeout _ => some "timeout"
  | .connectionError _ => some "connection_error"
  | .requestException _ => some "request_exception"
  | .unexpectedError _ => some "unexpected_error"

/-- `BaseHTTPSource.request` (base.py lines 285-349): count the request, and
on each failure class increment `failed_requests`, record the classified key
via `_track_http_error`, append an error record via `_track_error`, and
return `None`; on success increment `successful_requests` and return the
response. Rate limiting and logging are side effects without bearing on the
claims. -/
def request (st : HTTPStats) (outcome : HTTPOutcome) (url : String) (t : Nat) :
    Option HTTPResponse × HTTPStats :=
  let st1 := { st with total_requests := st.total_requests + 1 }
  match outcome with
  | .success code body =>
      (some ⟨code, body⟩, { st1 with successful_requests := st1.successful_requests + 1 })
  | .httpError s _ =>
      (none, { st1 with failed_requests := st1.failed_requests + 1,
                        errors_by_type := track_http_error st1.errors_by_type ("http_" ++ statusStr s),
                        base := track_error st1.base "http_error" ("HTTP " ++ statusStr s) url t })
  | .timeout m =>
      (none, { st1 with failed_requests := st1.failed_requests + 1,
                        errors_by_type := track_http_error st1.errors_by_type "timeout",
                        base := track_error st1.base "timeout" m url t })
  | .connectionError m =>
      (none, { st1 with failed_requests := st1.failed_requests + 1,
                        errors_by_type := track_http_error st1.errors_by_type "connection_error",
                        base := track_error st1.base "connection_error" m url t })
  | .requestException m =>
      (none, { st1 with failed_requests := st1.failed_requests + 1,
                        errors_by_type := track_http_error st1.errors_by_type "request_exception",
                        base := track_error st1.base "request_exception" m url t })
  | .unexpectedError m =>
      (none, { st1 with failed_requests := st1.failed_requests + 1,
                        errors_by_type := track_http_error st1.errors_by_type "unexpected_error",
                        base := track_error st1.base "unexpected_error" m url t })

theorem lookupCount_track_self (m : List (String × Nat)) (k : String) :
    lookupCount (track_http_error m k) k = lookupCount m k + 1 := by
  induction m with
  | nil => simp [track_http_error, lookupCount]
  | cons p rest ih =>
      by_cases h : p.1 = k
      · simp [track_http_error, lookupCount, h]
      · simp [track_http_error, lookupCount, h, ih]

theorem lookupCount_track_other (m : List (String × Nat)) (k k2 : String) (h : k2 ≠ k) :
    lookupCount (track_http_error m k) k2 = lookupCount m k2 := by
  have hne : k ≠ k2 := fun he => h he.symm
  induction m with
  | nil => simp [track_http_error, lookupCount, hne]
  | cons p rest ih =>
      by_cases hp : p.1 = k
      · simp [track_http_error, lookupCount, hp, hne]
      · by_cases hq : p.1 = k2
        · simp [track_http_error, lookupCount, hp, hq, h]
        · simp [track_http_error, lookupCount, hp, hq, ih]

/-- C4: whenever the HTTP attempt ultimately fails, `request` returns `None`,
increments `failed_requests`, and records the failure under exactly one
`errors_by_type` key, which is one of `http_<status>`, `timeout`,
`connection_error`, `request_exception`, `unexpected_error`; all other keys
keep their counts. -/
theorem request_failure_recorded (st : HTTPStats) (outcome : HTTPOutcome)
    (url : String) (t : Nat) (k : String)
    (hk : classifyFailure outcome = some k) :
    (request st outcome url t).1 = none ∧
    (request st outcome url t).2.failed_requests = st.failed_requests + 1 ∧
    lookupCount (request st outcome url t).2.errors_by_type k =
      lookupCount st.errors_by_type k + 1 ∧
    (∀ k2, k2 ≠ k →
      lookupCount (request st outcome url t).2.errors_by_type k2 =
        lookupCount st.errors_by_type k2) ∧
    (k = "timeout" ∨ k = "connection_error" ∨ k = "request_exception" ∨
      k = "unexpected_error" ∨ ∃ s, k = "http_" ++ s) := by
  cases outcome with
  | success code body => simp [classifyFailure] at hk
  | httpError s m =>
      simp only [classifyFailure, Option.some.injEq] at hk
      subst hk
      exact ⟨rfl, rfl, lookupCount_track_self _ _,
        fun k2 h2 => lookupCount_track_other _ _ _ h2,
        Or.inr (Or.inr (Or.inr (Or.inr ⟨statusStr s, rfl⟩)))⟩
  | timeout m =>
      simp only [classifyFailure, Option.some.injEq] at hk
      subst hk
      exact ⟨rfl, rfl, lookupCount_track_self _ _,
        fun k2 h2 => lookupCount_track_other _ _ _ h2, Or.inl rfl⟩
  | connectionError m =>
      simp only [classifyFailure, Option.some.injEq] at hk
      subst hk
      exact ⟨rfl, rfl, lookupCount_track_self _ _,
        fun k2 h2 => lookupCount_track_other _ _ _ h2, Or.inr (Or.inl rfl)⟩
  | requestException m =>
      simp only [classifyFailure, Option.some.injEq] at hk
      subst hk
      exact ⟨rfl, rfl, lookupCount_track_self _ _,
        fun k2 h2 => lookupCount_track_other _ _ _ h2, Or.inr (Or.inr (Or.inl rfl))⟩
  | unexpectedError m =>
      simp only [classifyFailure, Option.some.injEq] at hk
      subst hk
      exact ⟨rfl, rfl, lookupCount_track_self _ _,
        fun k2 h2 => lookupCount_track_other _ _ _ h2,
        Or.inr (Or.inr (Or.inr (Or.inl rfl)))⟩

/-- A fresh HTTP statistics record as set up by `BaseHTTPSource.__init__`. -/
def initHTTPStats : HTTPStats :=
  { base := initStats, total_requests := 0, successful_requests := 0,
    failed_requests := 0, errors_by_type := [] }

theorem request_failure_recorded_witness :
    classifyFailure (.timeout "timed out") = some "timeout" ∧
    ((request initHTTPStats (.timeout "timed out") "https://x/y" 3).1 = none ∧
    (request initHTTPStats (.timeout "timed out") "https://x/y" 3).2.failed_requests =
      initHTTPStats.failed_requests + 1 ∧
    lookupCount (request initHTTPStats (.timeout "timed out") "https://x/y" 3).2.errors_by_type
      "timeout" = lookupCount initHTTPStats.errors_by_type "timeout" + 1 ∧
    (∀ k2, k2 ≠ "timeout" →
      lookupCount (request initHTTPStats (.timeout "timed out") "https://x/y" 3).2.errors_by_type
        k2 = lookupCount initHTTPStats.errors_by_type k2) ∧
    ("timeout" = "timeout" ∨ "timeout" = "connection_error" ∨
      "timeout" = "request_exception" ∨ "timeout" = "unexpected_error" ∨
      ∃ s, "timeout" = "http_" ++ s)) :=
  ⟨rfl, request_failure_recorded initHTTPStats (.timeout "timed out") "https://x/y" 3 "timeout" rfl⟩

/-!
Constructor signatures (`BaseSource.__init__`, `BaseHTTPSource.__init__`,
`ytTranscriptSource.__init__`).

Python's positional-argument binding is embedded explicitly: a call site
supplies a list of positional argument values (a value is `none` for Python's
`None` or a string), and a callee whose signature declares fewer positional
parameters than it receives raises `TypeError`.
-/

/-- The state a `BaseSource` holds after `__init__`. -/
structure BaseSourceState where
  source_id : String
  config : List (String × String)
  stats : Stats
deriving DecidableEq, Repr

/-- `BaseSource.__init__(self, source_id, **config)` (base.py lines 25-43)
invoked with an explicit list of positional arguments: it binds exactly one
positional parameter (`source_id`); any other count raises `TypeError`. -/
def baseSource_init (posArgs : List (Option String)) (kwargs : List (String × String)) :
    Except String BaseSourceState :=
  match posArgs with
  | [sid] => .ok { source_id := sid.getD "", config := kwargs, stats := initStats }
  | _ => .error "TypeError"

/-- `BaseHTTPSource.__init__` (base.py lines 182-195): its body begins with
`super().__init__(source_id, log_dir, **config)`, passing two positional
arguments to `BaseSource.__init__`; the remaining body runs only if that call
returns. -/
def baseHTTPSource_init (source_id user_agent : String) (base_url : Option String)
    (max_retries : Nat) (retry_backoff : Nat) (timeout : Nat)
    (proxy_config : Option (List (String × String))) (log_dir : Option String)
    (kwargs : List (String × String)) : Except String BaseSourceState :=
  match baseSource_init [some source_id, log_dir] kwargs with
  | .error e => .error e
  | .ok st => .ok st

/-- `ytTranscriptSource.__init__` (yt_transcipts.py lines 52-64): likewise
begins with `super().__init__(source_id, log_dir, **config)`. -/
def ytTranscriptSource_init (source_id api_key : String)
    (proxy_config : Option (List (String × String))) (log_dir : Option String)
    (kwargs : List (String × String)) : Except String BaseSourceState :=
  match baseSource_init [some source_id, log_dir] kwargs with
  | .error e => .error e
  | .ok st => .ok st

/-- C5: for every choice of constructor arguments, both
`BaseHTTPSource.__init__` and `ytTranscriptSource.__init__` raise `TypeError`,
because each forwards `log_dir` as a second positional argument to
`BaseSource.__init__`, which accepts only `source_id` positionally; hence no
instance of either class can be constructed. -/
theorem http_and_yt_init_always_type_error
    (source_id user_agent api_key : String) (base_url : Option String)
    (max_retries retry_backoff timeout : Nat)
    (proxy_config : Option (List (String × String))) (log_dir : Option String)
    (kwargs : List (String × String)) :
    baseHTTPSource_init source_id user_agent base_url max_retries retry_backoff
      timeout proxy_config log_dir kwargs = .error "TypeError" ∧
    ytTranscriptSource_init source_id api_key proxy_config log_dir kwargs =
      .error "TypeError" := by
  constructor
  · rfl
  · rfl

/-!
Persistence gateway (`db_utils.py`). SQLite tables become lists of row
structures; the primary-key upsert of `INSERT ... ON CONFLICT(...) DO UPDATE`
updates the (unique) matching row or appends a new one; `utc_now()` becomes an
explicit `Nat` timestamp.
-/

/-- One row of the `channel` table. -/
structure ChannelRow where
  channel_id : String
  channel_name : String
  channel_description : String
  initialized : Nat
  update_datetime : Nat
deriving DecidableEq, Repr

/-- The upsert statement executed by `insert_channel` (db_utils.py lines
17-27): on a `channel_id` conflict, overwrite name, description,
`initialized` and `update_datetime`; otherwise insert the new row. -/
def upsertChannelRow (table : List ChannelRow) (row : ChannelRow) : List ChannelRow :=
  match table with
  | [] => [row]
  | r :: rest =>
      if r.channel_id = row.channel_id then row :: rest
      else r :: upsertChannelRow rest row

/-- `insert_channel` (db_utils.py lines 10-31): build the new row with the
supplied fields and the current timestamp, upsert it, and return `True`. -/
def insert_channel (table : List ChannelRow) (channel_id channel_name channel_description : String)
    (initialized : Nat) (now : Nat) : List ChannelRow × Bool :=
  (upsertChannelRow table ⟨channel_id, channel_name, channel_description, initialized, now⟩, true)

theorem upsertChannelRow_filter (table : List ChannelRow) (row : ChannelRow)
    (hkey : (table.filter (fun r => r.channel_id = row.channel_id)).length ≤ 1) :
    (upsertChannelRow table row).filter (fun r => r.channel_id = row.channel_id) = [row] := by
  induction table with
  | nil => simp [upsertChannelRow]
  | cons r rest ih =>
      by_cases h : r.channel_id = row.channel_id
      · have hrest : rest.filter (fun r => r.channel_id = row.channel_id) = [] := by
          rw [List.filter_cons] at hkey
          simp [h] at hkey
          simp only [List.filter_eq_nil_iff]
          intro a ha
          simpa using hkey a ha
        simp [upsertChannelRow, h, hrest]
      · simp only [upsertChannelRow, if_neg h]
        rw [List.filter_cons] at hkey
        simp [h] at hkey
        simp [h]
        exact ih hkey

/-- C7: upserting the same channel data twice leaves exactly one row for that
`channel_id`, with the same name, description and `initialized` value, whose
`update_datetime` is that of the second call; with a monotone clock the
timestamp is non-decreasing across the two calls. -/
theorem insert_channel_idempotent (table : List ChannelRow)
    (channel_id channel_name channel_description : String) (initialized : Nat)
    (t1 t2 : Nat)
    (hkey : (table.filter (fun r => r.channel_id = channel_id)).length ≤ 1)
    (ht : t1 ≤ t2) :
    ((insert_channel table channel_id channel_name channel_description initialized t1).1.filter
      (fun r => r.channel_id = channel_id)) =
      [⟨channel_id, channel_name, channel_description, initialized, t1⟩] ∧
    (((insert_channel
        (insert_channel table channel_id channel_name channel_description initialized t1).1
        channel_id channel_name channel_description initialized t2).1).filter
      (fun r => r.channel_id = channel_id)) =
      [⟨channel_id, channel_name, channel_description, initialized, t2⟩] ∧
    (insert_channel
        (insert_channel table channel_id channel_name channel_description initialized t1).1
        channel_id channel_name channel_description initialized t2).2 = true ∧
    t1 ≤ t2 := by
  have h1 := upsertChannelRow_filter table
    ⟨channel_id, channel_name, channel_description, initialized, t1⟩ hkey
  have hkey2 : (((insert_channel table channel_id channel_name channel_description
      initialized t1).1).filter (fun r => r.channel_id = channel_id)).length ≤ 1 := by
    simp [insert_channel] at h1 ⊢
    rw [h1]
    simp
  have h2 := upsertChannelRow_filter
    (insert_channel table channel_id channel_name channel_description initialized t1).1
    ⟨channel_id, channel_name, channel_description, initialized, t2⟩ hkey2
  exact ⟨h1, h2, rfl, ht⟩

theorem insert_channel_idempotent_witness :
    (([] : List ChannelRow).filter (fun r => r.channel_id = "UC42")).length ≤ 1 ∧
    (3 : Nat) ≤ 8 ∧
    (((insert_channel [] "UC42" "name" "desc" 0 3).1.filter
      (fun r => r.channel_id = "UC42")) =
      [⟨"UC42", "name", "desc", 0, 3⟩] ∧
    (((insert_channel (insert_channel [] "UC42" "name" "desc" 0 3).1
        "UC42" "name" "desc" 0 8).1).filter (fun r => r.channel_id = "UC42")) =
      [⟨"UC42", "name", "desc", 0, 8⟩] ∧
    (insert_channel (insert_channel [] "UC42" "name" "desc" 0 3).1
        "UC42" "name" "desc" 0 8).2 = true ∧
    (3 : Nat) ≤ 8) :=
  ⟨by decide, by decide,
   insert_channel_idempotent [] "UC42" "name" "desc" 0 3 8 (by decide) (by decide)⟩

/-- The failure report printed by `mark_channel_initialized`: either the
"No channel found with id ..." message or the "SQLite error: ..." message;
the two are distinguishable reports. -/
inductive DBReport where
  | notFound (channel_id : String)
  | sqliteError (msg : String)
deriving DecidableEq, Repr

/-- `mark_channel_initialized` (db_utils.py lines 56-78): run
`UPDATE channel SET initialized = 1, update_datetime = ? WHERE channel_id = ?`;
if no row matched (`cursor.rowcount == 0`) report not-found and return
`False`; on success return `True`. A storage fault (`sqlite3.Error`), injected
here as `fault`, is caught and reported as a SQLite error with `False`. -/
def mark_channel_initialized (table : List ChannelRow) (channel_id : String)
    (now : Nat) (fault : Option String) : List ChannelRow × Bool × Option DBReport :=
  match fault with
  | some m => (table, false, some (.sqliteError m))
  | none =>
      if table.any (fun r => r.channel_id = channel_id) then
        (table.map (fun r =>
          if r.channel_id = channel_id then
            { r with initialized := 1, update_datetime := now }
          else r), true, none)
      else
        (table, false, some (.notFound channel_id))

theorem filter_map_update_match (table : List ChannelRow) (channel_id : String) (now : Nat) :
    (table.map (fun r =>
        if r.channel_id = channel_id then
          { r with initialized := 1, update_datetime := now }
        else r)).filter (fun r => r.channel_id = channel_id) =
      (table.filter (fun r => r.channel_id = channel_id)).map
        (fun r => { r with initialized := 1, update_datetime := now }) := by
  induction table with
  | nil => simp
  | cons r rest ih =>
      by_cases h : r.channel_id = channel_id
      · simp [List.filter_cons, h, ih]
      · simp [List.filter_cons, h, ih]

theorem filter_map_update_nonmatch (table : List ChannelRow) (channel_id : String) (now : Nat) :
    (table.map (fun r =>
        if r.channel_id = channel_id then
          { r with initialized := 1, update_datetime := now }
        else r)).filter (fun r => !(r.channel_id = channel_id)) =
      table.filter (fun r => !(r.channel_id = channel_id)) := by
  induction table with
  | nil => simp
  | cons r rest ih =>
      by_cases h : r.channel_id = channel_id
      · simp [List.filter_cons, h, ih]
      · simp [List.filter_cons, h, ih]

/-- C9: when no row has the given `channel_id`, `mark_channel_initialized`
reports a not-found failure, distinct from any storage-error report, and
leaves the store unchanged; when a row exists it succeeds, every row for that
id gets `initialized = 1` and a refreshed `update_datetime` with its other
fields kept, and the remaining rows are untouched. -/
theorem mark_channel_initialized_spec (table : List ChannelRow)
    (channel_id : String) (now : Nat) :
    ((∀ r ∈ table, r.channel_id ≠ channel_id) →
      mark_channel_initialized table channel_id now none =
        (table, false, some (.notFound channel_id)) ∧
      ∀ m, (DBReport.notFound channel_id) ≠ (DBReport.sqliteError m)) ∧
    ((∃ r ∈ table, r.channel_id = channel_id) →
      (mark_channel_initialized table channel_id now none).2.1 = true ∧
      (mark_channel_initialized table channel_id now none).2.2 = none ∧
      (mark_channel_initialized table channel_id now none).1.filter
          (fun r => r.channel_id = channel_id) =
        (table.filter (fun r => r.channel_id = channel_id)).map
          (fun r => { r with initialized := 1, update_datetime := now }) ∧
      (mark_channel_initialized table channel_id now none).1.filter
          (fun r => !(r.channel_id = channel_id)) =
        table.filter (fun r => !(r.channel_id = channel_id))) := by
  constructor
  · intro hno
    have hany : table.any (fun r => r.channel_id = channel_id) = false := by
      simp only [List.any_eq_false]
      intro r hr
      simpa using hno r hr
    refine ⟨by simp [mark_channel_initialized, hany], fun m h => by cases h⟩
  · intro hex
    have hany : table.any (fun r => r.channel_id = channel_id) = true := by
      simp only [List.any_eq_true]
      rcases hex with ⟨r, hr, he⟩
      exact ⟨r, hr, by simpa using he⟩
    refine ⟨by simp [mark_channel_initialized, hany], by simp [mark_channel_initialized, hany], ?_, ?_⟩
    · simp only [mark_channel_initialized, hany, if_true]
      exact filter_map_update_match table channel_id now
    · simp only [mark_channel_initialized, hany, if_true]
      exact filter_map_update_nonmatch table channel_id now

theorem mark_channel_initialized_spec_witness :
    (∀ r ∈ ([⟨"UCother", "n", "d", 0, 1⟩] : List ChannelRow), r.channel_id ≠ "UC123") ∧
    (mark_channel_initialized [⟨"UCother", "n", "d", 0, 1⟩] "UC123" 9 none =
      ([⟨"UCother", "n", "d", 0, 1⟩], false, some (.notFound "UC123")) ∧
     ∀ m, (DBReport.notFound "UC123") ≠ (DBReport.sqliteError m)) :=
  ⟨by decide,
   (mark_channel_initialized_spec [⟨"UCother", "n", "d", 0, 1⟩] "UC123" 9).1 (by decide)⟩

/-- One row of the `video` table. -/
structure VideoRow where
  video_id : String
  channel_id : String
  video_name : String
  video_duration : Nat
  publication_date : Nat
  update_datetime : Nat
deriving DecidableEq, Repr

/-- One row of the `video_processing` table; the per-step columns start out
`NULL` when the row is created by `INSERT OR IGNORE ... (video_id)`. -/
structure VideoProcessingRow where
  video_id : String
  extract_status : Option String
  extract_datetime : Option Nat
  extract_file : Option String
  summarize_status : Option String
  summarize_datetime : Option Nat
  summarize_file : Option String
deriving DecidableEq, Repr

/-- A fresh `video_processing` row holding only the video id. -/
def emptyVP (video_id : String) : VideoProcessingRow :=
  ⟨video_id, none, none, none, none, none, none⟩

/-- ASCII lower-casing of one character, as Python's `str.lower()` does on
the step names occurring here. -/
def lowerChar (c : Char) : Char :=
  if 'A' ≤ c ∧ c ≤ 'Z' then Char.ofNat (c.toNat + 32) else c

/-- Python's `step.lower()`. -/
def pyLower (s : String) : String := String.mk (s.data.map lowerChar)

/-- `get_missing_video_ids` (db_utils.py lines 80-96): the
`LEFT JOIN ... WHERE vp.video_id IS NULL` query returns the video ids of the
video rows with no matching `video_processing` row. -/
def get_missing_video_ids (videos : List VideoRow) (vps : List VideoProcessingRow) :
    List String :=
  (videos.filter (fun v => !(vps.any (fun p => p.video_id = v.video_id)))).map
    (fun v => v.video_id)

/-- The column update performed by `update_video_processing` for one step. -/
def applyStep (r : VideoProcessingRow) (step status : String) (file_path : Option String)
    (now : Nat) : VideoProcessingRow :=
  if step = "extract" then
    { r with extract_status := some status, extract_datetime := some now,
             extract_file := file_path }
  else
    { r with summarize_status := some status, summarize_datetime := some now,
             summarize_file := file_path }

/-- `update_video_processing` (db_utils.py lines 98-152): lower-case the step
name, raise `ValueError` unless it is `extract` or `summarize`; then
`INSERT OR IGNORE` a bare row for the video id and update that step's three
columns of every row with this `video_id` (at most one under the primary
key); the row exists after the insert, so the update matches and the function
returns `True`. -/
def update_video_processing (vps : List VideoProcessingRow) (video_id step status : String)
    (file_path : Option String) (now : Nat) :
    Except String (List VideoProcessingRow × Bool) :=
  let stepL := pyLower step
  if stepL = "extract" ∨ stepL = "summarize" then
    let vps1 := if vps.any (fun p => p.video_id = video_id) then vps
                else vps ++ [emptyVP video_id]
    .ok (vps1.map (fun r =>
      if r.video_id = video_id then applyStep r stepL status file_path now else r), true)
  else
    .error "ValueError: step must be either extract or summarize"

theorem applyStep_video_id (r : VideoProcessingRow) (step status : String)
    (file_path : Option String) (now : Nat) :
    (applyStep r step status file_path now).video_id = r.video_id := by
  by_cases h : step = "extract" <;> simp [applyStep, h]

/-- C8: `get_missing_video_ids` returns exactly the set difference between the
video ids of the `video` table and those of the `video_processing` table, and
recording a processing step for a missing id removes it from the next call's
result. -/
theorem missing_video_ids_set_difference (videos : List VideoRow)
    (vps : List VideoProcessingRow) (video_id step status : String)
    (file_path : Option String) (now : Nat)
    (hmem : video_id ∈ get_missing_video_ids videos vps)
    (hstep : pyLower step = "extract" ∨ pyLower step = "summarize") :
    (∀ x, x ∈ get_missing_video_ids videos vps ↔
      ((∃ v ∈ videos, v.video_id = x) ∧ ¬ ∃ p ∈ vps, p.video_id = x)) ∧
    ∃ vps2, update_video_processing vps video_id step status file_path now =
        .ok (vps2, true) ∧
      video_id ∉ get_missing_video_ids videos vps2 := by
  have hchar : ∀ x, x ∈ get_missing_video_ids videos vps ↔
      ((∃ v ∈ videos, v.video_id = x) ∧ ¬ ∃ p ∈ vps, p.video_id = x) := by
    intro x
    simp only [get_missing_video_ids, List.mem_map, List.mem_filter]
    constructor
    · rintro ⟨v, ⟨hv, hnot⟩, he⟩
      subst he
      refine ⟨⟨v, hv, rfl⟩, ?_⟩
      rintro ⟨p, hp, hpe⟩
      simp only [Bool.not_eq_true'] at hnot
      rw [List.any_eq_false] at hnot
      have hq := hnot p hp
      simp only [decide_eq_true_eq] at hq
      exact hq hpe
    · rintro ⟨⟨v, hv, he⟩, hnone⟩
      subst he
      refine ⟨v, ⟨hv, ?_⟩, rfl⟩
      simp only [Bool.not_eq_true']
      rw [List.any_eq_false]
      intro p hp
      simp only [decide_eq_true_eq]
      exact fun hpe => hnone ⟨p, hp, hpe⟩
  have hnotin : ¬ ∃ p ∈ vps, p.video_id = video_id := ((hchar video_id).mp hmem).2
  have hany : vps.any (fun p => p.video_id = video_id) = false := by
    rw [List.any_eq_false]
    intro p hp
    simp only [decide_eq_true_eq]
    exact fun hpe => hnotin ⟨p, hp, hpe⟩
  refine ⟨hchar, ?_⟩
  refine ⟨(vps ++ [emptyVP video_id]).map (fun r =>
      if r.video_id = video_id then applyStep r (pyLower step) status file_path now else r),
    ?_, ?_⟩
  · simp [update_video_processing, hstep, hany]
  · intro hmem2
    simp only [get_missing_video_ids, List.mem_map, List.mem_filter] at hmem2
    rcases hmem2 with ⟨v, ⟨_, hnot⟩, he⟩
    simp only [Bool.not_eq_true'] at hnot
    rw [List.any_eq_false] at hnot
    have hin : applyStep (emptyVP video_id) (pyLower step) status file_path now ∈
        (vps ++ [emptyVP video_id]).map (fun r =>
          if r.video_id = video_id then applyStep r (pyLower step) status file_path now
          else r) := by
      simp only [List.mem_map]
      refine ⟨emptyVP video_id, ?_, ?_⟩
      · simp
      · simp [emptyVP]
    have hcontra := hnot _ hin
    simp only [decide_eq_true_eq] at hcontra
    rw [applyStep_video_id, he] at hcontra
    exact hcontra rfl

theorem missing_video_ids_witness :
    "v1" ∈ get_missing_video_ids [⟨"v1", "c1", "n", 10, 1, 1⟩] [] ∧
    (pyLower "Extract" = "extract" ∨ pyLower "Extract" = "summarize") ∧
    ((∀ x, x ∈ get_missing_video_ids [⟨"v1", "c1", "n", 10, 1, 1⟩]
        ([] : List VideoProcessingRow) ↔
      ((∃ v ∈ [(⟨"v1", "c1", "n", 10, 1, 1⟩ : VideoRow)], v.video_id = x) ∧
        ¬ ∃ p ∈ ([] : List VideoProcessingRow), p.video_id = x)) ∧
    ∃ vps2, update_video_processing [] "v1" "Extract" "completed" (some "f.txt") 7 =
        .ok (vps2, true) ∧
      "v1" ∉ get_missing_video_ids [⟨"v1", "c1", "n", 10, 1, 1⟩] vps2) :=
  ⟨by decide, Or.inl (by decide),
   missing_video_ids_set_difference [⟨"v1", "c1", "n", 10, 1, 1⟩] [] "v1" "Extract"
     "completed" (some "f.txt") 7 (by decide) (Or.inl (by decide))⟩

/-!
Pagination (`EDGARAPIClient.get_recent_form4_filings` and `_process_rss`,
edgar.py lines 217-265). An RSS entry is represented by its `updated` date
(a day number); the feed the server pages over is a list of such dates, and
the page served for offset `start` with page size `count` is
`(feed.drop start).take count`. The `while True` loop is given explicit fuel;
`none` models non-termination within the fuel bound.
-/

/-- `_process_rss` (edgar.py lines 217-232): collect every entry of the page
into the holder and report whether any entry is strictly older than the
cutoff date. -/
def process_rss (enteries : List Nat) (date_check : Nat) : List Nat × Bool :=
  (enteries, enteries.any (fun d => decide (d < date_check)))

/-- Whether the page at index `q` (offset `100 * q`) contains an entry older
than the cutoff. -/
def pageStale (feed : List Nat) (cutoff : Nat) (q : Nat) : Bool :=
  ((feed.drop (100 * q)).take 100).any (fun d => decide (d < cutoff))

/-- The `while True` loop of `get_recent_form4_filings`: fetch the page at
`start`, advance `start` by `count`, extend the holder with the whole page,
and stop as soon as the page contained a stale entry, returning the holder
and the number of page fetches performed. -/
def form4Loop (feed : List Nat) (cutoff start count : Nat) (holder : List Nat)
    (fetches fuel : Nat) : Option (List Nat × Nat) :=
  match fuel with
  | 0 => none
  | fuel2 + 1 =>
      let page := (feed.drop start).take count
      let pr := process_rss page cutoff
      let holder2 := holder ++ pr.1
      if pr.2 then some (holder2, fetches + 1)
      else form4Loop feed cutoff (start + count) count holder2 (fetches + 1) fuel2

/-- `get_recent_form4_filings` (edgar.py lines 235-265): page size 100,
starting offset 0. -/
def get_recent_form4_filings (feed : List Nat) (cutoff : Nat) (fuel : Nat) :
    Option (List Nat × Nat) :=
  form4Loop feed cutoff 0 100 [] 0 fuel

theorem form4Loop_halts : ∀ (p : Nat) (feed : List Nat) (cutoff start : Nat)
    (holder : List Nat) (fetches fuel : Nat),
    (∀ q < p, ((feed.drop (start + 100 * q)).take 100).any
      (fun d => decide (d < cutoff)) = false) →
    ((feed.drop (start + 100 * p)).take 100).any (fun d => decide (d < cutoff)) = true →
    p < fuel →
    form4Loop feed cutoff start 100 holder fetches fuel =
      some (holder ++ (feed.drop start).take (100 * (p + 1)), fetches + p + 1) := by
  intro p
  induction p with
  | zero =>
      intro feed cutoff start holder fetches fuel hq hp hfuel
      cases fuel with
      | zero => omega
      | succ fuel2 =>
          simp only [Nat.mul_zero, Nat.add_zero] at hp
          simp [form4Loop, process_rss, hp]
  | succ p ih =>
      intro feed cutoff start holder fetches fuel hq hp hfuel
      cases fuel with
      | zero => omega
      | succ fuel2 =>
          have h0 : ((feed.drop start).take 100).any (fun d => decide (d < cutoff)) = false := by
            have := hq 0 (Nat.succ_pos p)
            simpa using this
          have hq2 : ∀ q < p, ((feed.drop (start + 100 + 100 * q)).take 100).any
              (fun d => decide (d < cutoff)) = false := by
            intro q hqp
            have := hq (q + 1) (by omega)
            have harith : start + 100 * (q + 1) = start + 100 + 100 * q := by ring
            rwa [harith] at this
          have hp2 : ((feed.drop (start + 100 + 100 * p)).take 100).any
              (fun d => decide (d < cutoff)) = true := by
            have harith : start + 100 * (p + 1) = start + 100 + 100 * p := by ring
            rwa [harith] at hp
          have hfuel2 : p < fuel2 := by omega
          have hrec := ih feed cutoff (start + 100) (holder ++ (feed.drop start).take 100)
            (fetches + 1) fuel2 hq2 hp2 hfuel2
          simp only [form4Loop, process_rss, h0, Bool.false_eq_true, if_false]
          rw [hrec]
          have htake : (feed.drop start).take (100 * (p + 1 + 1)) =
              (feed.drop start).take 100 ++ (feed.drop (start + 100)).take (100 * (p + 1)) := by
            have harith : 100 * (p + 1 + 1) = 100 + 100 * (p + 1) := by ring
            rw [harith, List.take_add]
            congr 1
            rw [List.drop_drop]
          rw [htake]
          simp [List.append_assoc]
          omega

/-- C6: the multi-page Form 4 scan fetches pages of 100 starting at offset 0
and advancing by 100; it halts after the first page that contains an entry
older than the cutoff, and the result contains that entire page (all items of
pages 0 through p), with exactly `p + 1` page fetches. -/
theorem form4_pagination_halts (feed : List Nat) (cutoff : Nat) (p fuel : Nat)
    (hq : ∀ q < p, pageStale feed cutoff q = false)
    (hp : pageStale feed cutoff p = true)
    (hfuel : p < fuel) :
    get_recent_form4_filings feed cutoff fuel =
      some (feed.take (100 * (p + 1)), p + 1) := by
  have h := form4Loop_halts p feed cutoff 0 [] 0 fuel
    (by intro q hqp; have := hq q hqp; simpa [pageStale] using this)
    (by have := hp; simpa [pageStale] using this)
    hfuel
  simpa [get_recent_form4_filings] using h

/-- The synthetic reverse-chronological feed from the claim: 250 entries that
become stale (older than the cutoff 1) from item 120 onward. -/
def synthFeed : List Nat :=
  (List.range 250).map (fun i => if i < 120 then 1 else 0)

theorem form4_pagination_halts_witness :
    (∀ q < 1, pageStale synthFeed 1 q = false) ∧
    pageStale synthFeed 1 1 = true ∧
    (1 : Nat) < 10 ∧
    get_recent_form4_filings synthFeed 1 10 = some (synthFeed.take 200, 2) :=
  ⟨by decide, by decide, by decide,
   form4_pagination_halts synthFeed 1 1 10 (by decide) (by decide) (by decide)⟩
